import Mathlib

/-!
Shallow embedding of the core of `src/tools/workstate-dashboard.py`:
the in-memory store of sessions and threads, the reconciliation engine
(`upsert_session`, `delete_session`), the read-model snapshot
(`get_sessions_json`), one pass of the expiry `sweeper`, and the
clock / staleness utilities (`seconds_since`, `staleness`,
`relative_time`).

Modelling conventions:
  * Wall-clock time is an explicit `now : Int` parameter (simulated
    seconds); `now_iso` renders it as a decimal string and `parseTs`
    parses it back, so that "a stored timestamp string that cannot be
    parsed" is representable (any non-numeric string).
  * Python dicts (`sessions`, `Session.threads`) are association lists
    `List (String × _)` preserving insertion order; assignment updates
    the first matching key in place or appends, deletion removes the
    key, lookup finds the first matching key — the behaviour of a
    Python dict on its (unique-key) reachable states.
  * Absent JSON fields are `none`; `data.get(k, d)` is `Option.getD`.
-/

namespace Workstate

/-- Entry of a Python dict `data` payload: the fields `upsert_session`
reads via `data.get`; `none` models an absent key. -/
structure Report where
  session_id : Option String
  parent_id : Option String
  thread_id : Option String
  name : Option String
  task : Option String
  status : Option String
  risk : Option String
deriving DecidableEq, Repr

/-- The `Thread` dataclass. Timestamps are stored as strings, as in the
source. -/
structure Thread where
  thread_id : String
  name : String
  task : String
  status : String
  risk : String
  started : String
  last_seen : String
deriving DecidableEq, Repr

/-- The `Session` dataclass; `threads` is the `thread_id -> Thread`
dict as an insertion-ordered association list. -/
structure Session where
  session_id : String
  name : String
  task : String
  status : String
  risk : String
  started : String
  last_seen : String
  history : List String
  threads : List (String × Thread)
deriving DecidableEq, Repr

/-- One element of the module-level `expired` list: the dict literal
appended by `upsert_session` / `delete_session`. -/
structure ExpiredEntry where
  name : String
  last_task : String
  expired_at : String
deriving DecidableEq, Repr

/-- The module-level mutable state: the `sessions` dict and the
`expired` list (`lock` is modelled by every operation being one atomic
function on `Store`). -/
structure Store where
  sessions : List (String × Session)
  expired : List ExpiredEntry
deriving DecidableEq, Repr

def MAX_HISTORY : Nat := 5

def WARN_SECONDS : Int := 60

def STALE_SECONDS : Int := 180

def EXPIRE_SECONDS : Int := 600

def PURGE_SECONDS : Int := 300

/-- Dict lookup: first entry with the given key (`d[k]` / `d.get(k)`). -/
def lookupKey {α : Type} (k : String) : List (String × α) → Option α
  | [] => none
  | (k', v) :: rest => if k' = k then some v else lookupKey k rest

/-- Dict assignment `d[k] = v`: replace the first entry with key `k` in
place, or append a new entry at the end. -/
def setKey {α : Type} (k : String) (v : α) : List (String × α) → List (String × α)
  | [] => [(k, v)]
  | (k', v') :: rest => if k' = k then (k, v) :: rest else (k', v') :: setKey k v rest

/-- Dict deletion `del d[k]` / `d.pop(k)`: drop the entries with key `k`. -/
def eraseKey {α : Type} (k : String) : List (String × α) → List (String × α)
  | [] => []
  | (k', v') :: rest => if k' = k then eraseKey k rest else (k', v') :: eraseKey k rest

/-- `now_iso()`: render the simulated clock as a timestamp string. -/
def now_iso (now : Int) : String := toString now

/-- Decimal digit value of a character, if it is a digit. -/
def digitVal (c : Char) : Option Nat :=
  if 48 ≤ c.toNat ∧ c.toNat ≤ 57 then some (c.toNat - 48) else none

def parseDigitsAux : List Char → Nat → Option Nat
  | [], acc => some acc
  | c :: cs, acc =>
    match digitVal c with
    | some d => parseDigitsAux cs (acc * 10 + d)
    | none => none

/-- Parse a nonempty string of decimal digits. -/
def parseDigits : List Char → Option Nat
  | [] => none
  | cs => parseDigitsAux cs 0

/-- Modelled from the spec: `datetime.fromisoformat` (Python stdlib, not
part of this repository) is modelled as decimal-integer parsing of the
timestamp strings produced by `now_iso`; a string that is not an
optionally signed decimal integer is a malformed timestamp that
"cannot be parsed". -/
def parseTs (s : String) : Option Int :=
  match s.data with
  | '-' :: rest => (parseDigits rest).map (fun n => -(n : Int))
  | cs => (parseDigits cs).map (fun n => (n : Int))

/-- `seconds_since(iso_str)`: age of a stored timestamp, with the
`except: return 0` fail-open branch for unparsable timestamps. -/
def seconds_since (now : Int) (iso_str : String) : Int :=
  match parseTs iso_str with
  | some t => now - t
  | none => 0

/-- `staleness(last_seen)`: the three display tiers. -/
def staleness (now : Int) (last_seen : String) : String :=
  let age := seconds_since now last_seen
  if age < WARN_SECONDS then "ok"
  else if age < STALE_SECONDS then "warning"
  else "idle"

/-- `relative_time(iso_str)` (Python `//` on the nonnegative ages that
occur is integer division). -/
def relative_time (now : Int) (iso_str : String) : String :=
  let age := seconds_since now iso_str
  if age < 60 then toString age ++ "s ago"
  else if age < 3600 then toString (age / 60) ++ "m ago"
  else toString (age / 3600) ++ "h ago"

/-- Python truthiness of an optional string field: `None` and `""` are
falsy (`if not sid`, `if parent_id`). -/
def truthy : Option String → Option String
  | none => none
  | some s => if s = "" then none else some s

/-- Result of `upsert_session` / `delete_session`: the returned JSON
body together with its HTTP status code. -/
inductive UpsertResult
  | clientError (msg : String)
  | threadOk (session_id thread_id : String) (active_sessions : Nat)
  | sessionOk (session_id name : String) (active_sessions : Nat)
deriving DecidableEq, Repr

inductive DeleteResult
  | removed (sid : String)
  | notFound
deriving DecidableEq, Repr

/-- Merge of a thread report into an existing `Thread` (lines 121-124). -/
def mergeThread (now : Int) (t : Thread) (r : Report) : Thread :=
  { t with
    task := r.task.getD t.task
    status := r.status.getD t.status
    risk := r.risk.getD t.risk
    last_seen := now_iso now }

/-- Creation of a new `Thread` with the documented defaults
(lines 126-134). -/
def newThread (now : Int) (tid : String) (r : Report) : Thread :=
  { thread_id := tid
    name := r.name.getD tid
    task := r.task.getD ""
    status := r.status.getD "Running"
    risk := r.risk.getD "-"
    started := now_iso now
    last_seen := now_iso now }

/-- Thread-report path of `upsert_session` (lines 116-140): merge or
create the thread, then delete every thread whose status is `"Done"`. -/
def upsertThreadPath (now : Int) (st : Store) (pid : String) (parent : Session)
    (sid : String) (r : Report) : Store × UpsertResult :=
  let tid := r.thread_id.getD sid
  let threads1 :=
    match lookupKey tid parent.threads with
    | some t => setKey tid (mergeThread now t r) parent.threads
    | none => setKey tid (newThread now tid r) parent.threads
  let threads2 := threads1.filter (fun p => decide (p.2.status ≠ "Done"))
  let sessions' := setKey pid { parent with threads := threads2 } st.sessions
  (⟨sessions', st.expired⟩, .threadOk pid tid sessions'.length)

/-- Bounded history push (lines 147-149): append the old task, then
keep only the last `MAX_HISTORY` entries (`history[-MAX_HISTORY:]`). -/
def pushHistory (history : List String) (old_task : String) : List String :=
  let h1 := history ++ [old_task]
  if h1.length > MAX_HISTORY then h1.drop (h1.length - MAX_HISTORY) else h1

/-- Merge of a session report into an existing `Session`
(lines 144-153): push the old task onto history when it changed, then
overwrite task/status/risk and refresh `last_seen`. -/
def mergeSession (now : Int) (s : Session) (r : Report) : Session :=
  let new_task := r.task.getD s.task
  { s with
    task := new_task
    history := if new_task ≠ s.task then pushHistory s.history s.task else s.history
    status := r.status.getD s.status
    risk := r.risk.getD s.risk
    last_seen := now_iso now }

/-- Creation of a new `Session` with the documented defaults
(lines 155-163); `count` is `len(sessions)` at creation time. -/
def newSession (now : Int) (sid : String) (count : Nat) (r : Report) : Session :=
  { session_id := sid
    name := r.name.getD ("session-" ++ toString (count + 1))
    task := r.task.getD "Session started"
    status := r.status.getD "Running"
    risk := r.risk.getD "-"
    started := now_iso now
    last_seen := now_iso now
    history := []
    threads := [] }

/-- Name component of the session-path return value (line 175):
`sessions[sid].name if sid in sessions else data.get("name", "")`. -/
def returnName (sess : List (String × Session)) (sid : String) (r : Report) : String :=
  match lookupKey sid sess with
  | some s => s.name
  | none => r.name.getD ""

/-- The `sessions` dict right after the merge-or-create step of the
session path (lines 143-163). -/
def sessionsAfterMerge (now : Int) (st : Store) (sid : String) (r : Report) :
    List (String × Session) :=
  match lookupKey sid st.sessions with
  | some s => setKey sid (mergeSession now s r) st.sessions
  | none => setKey sid (newSession now sid st.sessions.length r) st.sessions

/-- Session-report path of `upsert_session` (lines 142-176): merge or
create the session, retire it immediately when its status is `"Done"`
(pop it and append an `ExpiredEntry`), and build the return value. -/
def upsertSessionPath (now : Int) (st : Store) (sid : String) (r : Report) :
    Store × UpsertResult :=
  let sessions1 := sessionsAfterMerge now st sid r
  match lookupKey sid sessions1 with
  | some s' =>
    if s'.status = "Done" then
      let sessions2 := eraseKey sid sessions1
      let expired' := st.expired ++ [⟨s'.name, s'.task, now_iso now⟩]
      (⟨sessions2, expired'⟩, .sessionOk sid (returnName sessions2 sid r) sessions2.length)
    else
      (⟨sessions1, st.expired⟩, .sessionOk sid (returnName sessions1 sid r) sessions1.length)
  | none =>
    (⟨sessions1, st.expired⟩, .sessionOk sid (returnName sessions1 sid r) sessions1.length)

/-- `upsert_session(data)` (lines 107-176): reject a missing or empty
`session_id`, take the thread path when a truthy `parent_id` resolves
to a live session, and the session path otherwise. -/
def upsert_session (now : Int) (st : Store) (r : Report) : Store × UpsertResult :=
  match truthy r.session_id with
  | none => (st, .clientError "Missing required field: session_id")
  | some sid =>
    match truthy r.parent_id with
    | some pid =>
      match lookupKey pid st.sessions with
      | some parent => upsertThreadPath now st pid parent sid r
      | none => upsertSessionPath now st sid r
    | none => upsertSessionPath now st sid r

/-- Whether `upsert_session` takes the thread-report path (the test on
line 116: `parent_id and parent_id in sessions`). -/
def takesThreadPath (st : Store) (r : Report) : Bool :=
  match truthy r.parent_id with
  | some pid => (lookupKey pid st.sessions).isSome
  | none => false

/-- `delete_session(sid)` (lines 179-189). -/
def delete_session (now : Int) (st : Store) (sid : String) : Store × DeleteResult :=
  match lookupKey sid st.sessions with
  | some s =>
    (⟨eraseKey sid st.sessions, st.expired ++ [⟨s.name, s.task, now_iso now⟩]⟩, .removed sid)
  | none => (st, .notFound)

/-- One thread row of the snapshot (lines 198-208). -/
structure ThreadView where
  thread_id : String
  name : String
  task : String
  status : String
  risk : String
  started : String
  last_seen : String
  staleness : String
  last_seen_relative : String
deriving DecidableEq, Repr

/-- One session row of the snapshot (lines 209-221). -/
structure SessionView where
  session_id : String
  name : String
  task : String
  status : String
  risk : String
  started : String
  last_seen : String
  staleness : String
  last_seen_relative : String
  history : List String
  threads : List ThreadView
deriving DecidableEq, Repr

/-- The value returned by `get_sessions_json` (lines 224-232). -/
structure Snapshot where
  sessions : List SessionView
  expired : List ExpiredEntry
  count_sessions : Nat
  count_threads : Nat
  timestamp : String
deriving DecidableEq, Repr

def threadView (now : Int) (t : Thread) : ThreadView :=
  { thread_id := t.thread_id
    name := t.name
    task := t.task
    status := t.status
    risk := t.risk
    started := t.started
    last_seen := t.last_seen
    staleness := staleness now t.last_seen
    last_seen_relative := relative_time now t.last_seen }

def sessionView (now : Int) (s : Session) : SessionView :=
  { session_id := s.session_id
    name := s.name
    task := s.task
    status := s.status
    risk := s.risk
    started := s.started
    last_seen := s.last_seen
    staleness := staleness now s.last_seen
    last_seen_relative := relative_time now s.last_seen
    history := s.history
    threads := s.threads.map (fun p => threadView now p.2) }

/-- `get_sessions_json()` (lines 192-232): the read-model snapshot;
`expired[-10:]` is `drop (length - 10)`. -/
def get_sessions_json (now : Int) (st : Store) : Snapshot :=
  { sessions := st.sessions.map (fun p => sessionView now p.2)
    expired := st.expired.drop (st.expired.length - 10)
    count_sessions := st.sessions.length
    count_threads := (st.sessions.map (fun p => p.2.threads.length)).sum
    timestamp := now_iso now }

/-- Thread pruning of one sweeper cycle for one session (lines
248-254): delete every thread older than `EXPIRE_SECONDS`. -/
def sweepThreads (now : Int) (s : Session) : Session :=
  { s with
    threads := s.threads.filter
      (fun p => decide (¬ seconds_since now p.2.last_seen > EXPIRE_SECONDS)) }

/-- One cycle of the `sweeper` loop body (lines 242-261), the
`sweepOnce()` operation of the spec: prune expired threads of every
session (sessions themselves are never removed) and purge retired
entries older than `PURGE_SECONDS`. -/
def sweepOnce (now : Int) (st : Store) : Store :=
  { sessions := st.sessions.map (fun p => (p.1, sweepThreads now p.2))
    expired := st.expired.filter (fun e => decide (seconds_since now e.expired_at < PURGE_SECONDS)) }

/-- One operation of the external interface, for reasoning about
arbitrary finite operation sequences. -/
inductive Op
  | upsertOp (now : Int) (r : Report)
  | deleteOp (now : Int) (sid : String)
  | sweepOp (now : Int)
deriving Repr

def applyOp (st : Store) : Op → Store
  | .upsertOp now r => (upsert_session now st r).1
  | .deleteOp now sid => (delete_session now st sid).1
  | .sweepOp now => sweepOnce now st

def run (st : Store) (ops : List Op) : Store := ops.foldl applyOp st

/-- The empty initial store. -/
def initStore : Store := ⟨[], []⟩

/-- The history-length invariant of the spec: every live session's
task-history log has at most 5 entries. -/
def HistBound (st : Store) : Prop := ∀ p ∈ st.sessions, p.2.history.length ≤ 5

/-! ### Concrete inputs used as witnesses -/

def demoSession : Session :=
  { session_id := "s1", name := "alice", task := "build", status := "Running",
    risk := "-", started := "0", last_seen := "0", history := [], threads := [] }

def demoStore : Store := ⟨[("s1", demoSession)], []⟩

def emptyReport : Report := ⟨none, none, none, none, none, none, none⟩

/-- A session report that sets the status to "Done". -/
def doneReport : Report := { emptyReport with session_id := some "s1", status := some "Done" }

/-- A session report that changes the task. -/
def taskReport : Report := { emptyReport with session_id := some "s1", task := some "test" }

/-- A thread report under parent "s1" whose status is already "Done". -/
def threadDoneReport : Report :=
  { emptyReport with
    session_id := some "t1"
    parent_id := some "s1"
    task := some "scan"
    status := some "Done" }

/-- A retiring session report that also carries a `name` field. -/
def namedDoneReport : Report :=
  { emptyReport with session_id := some "s1", name := some "B", status := some "Done" }

def demoThreadOld : Thread :=
  { thread_id := "t1", name := "t1", task := "scan", status := "Running",
    risk := "-", started := "0", last_seen := "0" }

def demoThreadRecent : Thread :=
  { thread_id := "t2", name := "t2", task := "scan", status := "Running",
    risk := "-", started := "500", last_seen := "500" }

def demoSweepSession : Session :=
  { session_id := "s1", name := "alice", task := "build", status := "Running",
    risk := "-", started := "0", last_seen := "0", history := [],
    threads := [("t1", demoThreadOld), ("t2", demoThreadRecent)] }

def demoSweepStore : Store := ⟨[("s1", demoSweepSession)], []⟩

/-! ### Association-list lemmas -/

theorem lookupKey_setKey_self {α : Type} (k : String) (v : α) (l : List (String × α)) :
    lookupKey k (setKey k v l) = some v := by
  induction l with
  | nil => simp [setKey, lookupKey]
  | cons p rest ih =>
    by_cases h : p.1 = k
    · simp [setKey, lookupKey, h]
    · simp only [setKey, lookupKey]
      rw [if_neg h, lookupKey, if_neg h]
      exact ih

theorem lookupKey_mem {α : Type} {k : String} {v : α} {l : List (String × α)}
    (h : lookupKey k l = some v) : (k, v) ∈ l := by
  induction l with
  | nil => simp [lookupKey] at h
  | cons p rest ih =>
    rw [lookupKey] at h
    by_cases hk : p.1 = k
    · rw [if_pos hk] at h
      obtain ⟨a, b⟩ := p
      obtain rfl : a = k := hk
      obtain rfl : b = v := Option.some.inj h
      exact List.mem_cons_self _ _
    · rw [if_neg hk] at h
      exact List.mem_cons_of_mem _ (ih h)

theorem mem_setKey {α : Type} {q : String × α} {k : String} {v : α} {l : List (String × α)}
    (h : q ∈ setKey k v l) : q = (k, v) ∨ q ∈ l := by
  induction l with
  | nil => simpa [setKey] using h
  | cons p rest ih =>
    rw [setKey] at h
    by_cases hk : p.1 = k
    · rw [if_pos hk] at h
      rcases List.mem_cons.mp h with h | h
      · exact Or.inl h
      · exact Or.inr (List.mem_cons_of_mem _ h)
    · rw [if_neg hk] at h
      rcases List.mem_cons.mp h with h | h
      · exact Or.inr (h ▸ List.mem_cons_self _ _)
      · rcases ih h with h | h
        · exact Or.inl h
        · exact Or.inr (List.mem_cons_of_mem _ h)

theorem mem_eraseKey {α : Type} {q : String × α} {k : String} {l : List (String × α)}
    (h : q ∈ eraseKey k l) : q.1 ≠ k ∧ q ∈ l := by
  induction l with
  | nil => simp [eraseKey] at h
  | cons p rest ih =>
    rw [eraseKey] at h
    by_cases hk : p.1 = k
    · rw [if_pos hk] at h
      exact ⟨(ih h).1, List.mem_cons_of_mem _ (ih h).2⟩
    · rw [if_neg hk] at h
      rcases List.mem_cons.mp h with h | h
      · exact ⟨h ▸ hk, h ▸ List.mem_cons_self _ _⟩
      · exact ⟨(ih h).1, List.mem_cons_of_mem _ (ih h).2⟩

theorem lookupKey_eraseKey_self {α : Type} (k : String) (l : List (String × α)) :
    lookupKey k (eraseKey k l) = none := by
  induction l with
  | nil => simp [eraseKey, lookupKey]
  | cons p rest ih =>
    rw [eraseKey]
    by_cases hk : p.1 = k
    · rw [if_pos hk]
      exact ih
    · rw [if_neg hk, lookupKey, if_neg hk]
      exact ih

theorem lookupKey_map {α β : Type} (f : α → β) (k : String) (l : List (String × α)) :
    lookupKey k (l.map (fun p => (p.1, f p.2))) = (lookupKey k l).map f := by
  induction l with
  | nil => simp [lookupKey]
  | cons p rest ih =>
    by_cases hk : p.1 = k
    · simp [lookupKey, hk]
    · simp only [List.map_cons, lookupKey, if_neg hk]
      exact ih

/-! ### History lemmas -/

theorem pushHistory_length_le (h : List String) (x : String) :
    (pushHistory h x).length ≤ MAX_HISTORY := by
  rw [pushHistory]
  split
  · rename_i hgt
    simp only [List.length_drop] at *
    omega
  · omega

theorem pushHistory_eq_drop (h : List String) (x : String) :
    pushHistory h x = (h ++ [x]).drop (h.length + 1 - MAX_HISTORY) := by
  rw [pushHistory]
  split
  · simp [List.length_append]
  · rename_i hle
    simp only [List.length_append, List.length_singleton, not_lt] at hle
    have : h.length + 1 - MAX_HISTORY = 0 := by omega
    simp [this]

theorem mem_drop_last10 {α : Type} (l : List α) (e : α) :
    e ∈ (l ++ [e]).drop ((l ++ [e]).length - 10) := by
  have hle : (l ++ [e]).length - 10 ≤ l.length := by
    simp only [List.length_append, List.length_singleton]
    omega
  rw [List.drop_append_of_le_length hle]
  exact List.mem_append_right _ (List.mem_singleton_self e)

/-! ### Path-reduction lemmas for `upsert_session` -/

theorem truthy_some {s : String} (h : s ≠ "") : truthy (some s) = some s := by
  simp [truthy, h]

theorem upsert_eq_sessionPath (now : Int) (st : Store) (r : Report) (sid : String)
    (hsid : r.session_id = some sid) (hne : sid ≠ "")
    (hpath : takesThreadPath st r = false) :
    upsert_session now st r = upsertSessionPath now st sid r := by
  have h1 : truthy r.session_id = some sid := by rw [hsid]; exact truthy_some hne
  rw [takesThreadPath] at hpath
  cases hp : truthy r.parent_id with
  | none => simp [upsert_session, h1, hp]
  | some pid =>
    cases hl : lookupKey pid st.sessions with
    | none => simp [upsert_session, h1, hp, hl]
    | some parent => simp [hp, hl] at hpath

theorem upsert_eq_threadPath (now : Int) (st : Store) (r : Report) (sid pid : String)
    (parent : Session)
    (hsid : r.session_id = some sid) (hne : sid ≠ "")
    (hpid : truthy r.parent_id = some pid)
    (hparent : lookupKey pid st.sessions = some parent) :
    upsert_session now st r = upsertThreadPath now st pid parent sid r := by
  have h1 : truthy r.session_id = some sid := by rw [hsid]; exact truthy_some hne
  simp [upsert_session, h1, hpid, hparent]

theorem truthy_eq_some {o : Option String} {s : String} (h : truthy o = some s) :
    o = some s ∧ s ≠ "" := by
  cases o with
  | none => simp [truthy] at h
  | some s' =>
    rw [truthy] at h
    by_cases he : s' = ""
    · rw [if_pos he] at h; cases h
    · rw [if_neg he] at h; cases h; exact ⟨rfl, he⟩

theorem returnName_eq (l : List (String × Session)) (sid : String) (r : Report) :
    returnName l sid r = (lookupKey sid l).elim (r.name.getD "") Session.name := by
  rw [returnName]
  cases lookupKey sid l <;> rfl

theorem sessionsAfterMerge_of_live (now : Int) (st : Store) (sid : String) (r : Report)
    (s : Session) (hlive : lookupKey sid st.sessions = some s) :
    sessionsAfterMerge now st sid r = setKey sid (mergeSession now s r) st.sessions := by
  rw [sessionsAfterMerge, hlive]

theorem upsertSessionPath_done (now : Int) (st : Store) (sid : String) (r : Report)
    (s : Session)
    (hlive : lookupKey sid st.sessions = some s)
    (hdone : r.status.getD s.status = "Done") :
    (upsertSessionPath now st sid r).1 =
      ⟨eraseKey sid (setKey sid (mergeSession now s r) st.sessions),
       st.expired ++ [⟨s.name, r.task.getD s.task, now_iso now⟩]⟩ := by
  have hm := sessionsAfterMerge_of_live now st sid r s hlive
  have hdone' : (mergeSession now s r).status = "Done" := hdone
  simp [upsertSessionPath, hm, lookupKey_setKey_self, hdone']
  exact ⟨rfl, rfl⟩

theorem upsertSessionPath_notDone (now : Int) (st : Store) (sid : String) (r : Report)
    (s : Session)
    (hlive : lookupKey sid st.sessions = some s)
    (hnd : r.status.getD s.status ≠ "Done") :
    (upsertSessionPath now st sid r).1 =
      ⟨setKey sid (mergeSession now s r) st.sessions, st.expired⟩ := by
  have hm := sessionsAfterMerge_of_live now st sid r s hlive
  have hnd' : (mergeSession now s r).status ≠ "Done" := hnd
  simp [upsertSessionPath, hm, lookupKey_setKey_self, hnd']

theorem map_fst_map {α β : Type} (f : α → β) (l : List (String × α)) :
    (l.map (fun p => (p.1, f p.2))).map Prod.fst = l.map Prod.fst := by
  induction l with
  | nil => rfl
  | cons p rest ih => simp [ih]

/-! ### History-bound preservation lemmas -/

theorem histBound_mergeSession (now : Int) (s : Session) (r : Report)
    (h : s.history.length ≤ 5) : (mergeSession now s r).history.length ≤ 5 := by
  have e : (mergeSession now s r).history =
      (if r.task.getD s.task ≠ s.task then pushHistory s.history s.task else s.history) := rfl
  rw [e]
  split
  · exact pushHistory_length_le s.history s.task
  · exact h

theorem histBound_sessionsAfterMerge (now : Int) (st : Store) (sid : String) (r : Report)
    (h : HistBound st) :
    ∀ p ∈ sessionsAfterMerge now st sid r, p.2.history.length ≤ 5 := by
  intro p hp
  rw [sessionsAfterMerge] at hp
  cases hs : lookupKey sid st.sessions with
  | some s =>
    rw [hs] at hp
    rcases mem_setKey hp with rfl | hp
    · exact histBound_mergeSession now s r (h _ (lookupKey_mem hs))
    · exact h _ hp
  | none =>
    rw [hs] at hp
    rcases mem_setKey hp with rfl | hp
    · simp [newSession]
    · exact h _ hp

theorem histBound_upsertSessionPath (now : Int) (st : Store) (sid : String) (r : Report)
    (h : HistBound st) : HistBound (upsertSessionPath now st sid r).1 := by
  have hb1 := histBound_sessionsAfterMerge now st sid r h
  simp only [upsertSessionPath]
  split
  · split
    · intro p hp
      exact hb1 p (mem_eraseKey hp).2
    · intro p hp
      exact hb1 p hp
  · intro p hp
    exact hb1 p hp

theorem histBound_upsertThreadPath (now : Int) (st : Store) (pid : String) (parent : Session)
    (sid : String) (r : Report) (h : HistBound st) (hp : parent.history.length ≤ 5) :
    HistBound (upsertThreadPath now st pid parent sid r).1 := by
  intro q hq
  rcases mem_setKey hq with rfl | hq
  · exact hp
  · exact h _ hq

theorem histBound_upsert (now : Int) (st : Store) (r : Report) (h : HistBound st) :
    HistBound (upsert_session now st r).1 := by
  cases h1 : truthy r.session_id with
  | none =>
    have e : upsert_session now st r = (st, .clientError "Missing required field: session_id") := by
      simp [upsert_session, h1]
    rw [e]
    exact h
  | some sid =>
    obtain ⟨hsid, hne⟩ := truthy_eq_some h1
    cases hp : truthy r.parent_id with
    | none =>
      rw [upsert_eq_sessionPath now st r sid hsid hne (by simp [takesThreadPath, hp])]
      exact histBound_upsertSessionPath now st sid r h
    | some pid =>
      cases hl : lookupKey pid st.sessions with
      | none =>
        rw [upsert_eq_sessionPath now st r sid hsid hne (by simp [takesThreadPath, hp, hl])]
        exact histBound_upsertSessionPath now st sid r h
      | some parent =>
        rw [upsert_eq_threadPath now st r sid pid parent hsid hne hp hl]
        exact histBound_upsertThreadPath now st pid parent sid r h (h _ (lookupKey_mem hl))

theorem histBound_delete (now : Int) (st : Store) (sid : String) (h : HistBound st) :
    HistBound (delete_session now st sid).1 := by
  simp only [delete_session]
  cases hs : lookupKey sid st.sessions with
  | some s => intro q hq; exact h _ (mem_eraseKey hq).2
  | none => exact h

theorem histBound_sweepOnce (now : Int) (st : Store) (h : HistBound st) :
    HistBound (sweepOnce now st) := by
  intro q hq
  rcases List.mem_map.mp hq with ⟨p, hp, rfl⟩
  exact h p hp

theorem histBound_applyOp (st : Store) (op : Op) (h : HistBound st) :
    HistBound (applyOp st op) := by
  cases op with
  | upsertOp now r => exact histBound_upsert now st r h
  | deleteOp now sid => exact histBound_delete now st sid h
  | sweepOp now => exact histBound_sweepOnce now st h

/-! ### Claim theorems -/

/-- C7: a report payload lacking a session identifier is rejected with
a client-input error and the whole store (sessions and retired log) is
left exactly as it was. -/
theorem upsert_missing_session_id_rejected (now : Int) (st : Store) (r : Report)
    (h : r.session_id = none) :
    (upsert_session now st r).1 = st ∧
    (upsert_session now st r).2 = .clientError "Missing required field: session_id" := by
  simp [upsert_session, h, truthy]

theorem upsert_missing_session_id_rejected_witness :
    (upsert_session 0 demoStore emptyReport).1 = demoStore ∧
    (upsert_session 0 demoStore emptyReport).2 =
      .clientError "Missing required field: session_id" :=
  upsert_missing_session_id_rejected 0 demoStore emptyReport rfl

/-- C10: a report payload whose session identifier is present but equal
to the empty string is rejected exactly like a missing one (line 109
tests truthiness, not presence), with no state mutated. -/
theorem upsert_empty_session_id_rejected (now : Int) (st : Store) (r : Report)
    (h : r.session_id = some "") :
    (upsert_session now st r).1 = st ∧
    (upsert_session now st r).2 = .clientError "Missing required field: session_id" := by
  simp [upsert_session, h, truthy]

theorem upsert_empty_session_id_rejected_witness :
    (upsert_session 0 demoStore { emptyReport with session_id := some "" }).1 = demoStore ∧
    (upsert_session 0 demoStore { emptyReport with session_id := some "" }).2 =
      .clientError "Missing required field: session_id" :=
  upsert_empty_session_id_rejected 0 demoStore { emptyReport with session_id := some "" } rfl

/-- C9: a stored timestamp that cannot be parsed gives age zero instead
of failing, so staleness classification lands in the freshest tier
(the code's label "ok"); `seconds_since` and `staleness` are total, so
no snapshot or sweep pass fails on a malformed timestamp. -/
theorem seconds_since_malformed_zero (now : Int) (ls : String) (h : parseTs ls = none) :
    seconds_since now ls = 0 ∧ staleness now ls = "ok" := by
  have h0 : seconds_since now ls = 0 := by rw [seconds_since, h]
  refine ⟨h0, ?_⟩
  have e : staleness now ls =
      (if seconds_since now ls < 60 then "ok"
       else if seconds_since now ls < 180 then "warning" else "idle") := rfl
  rw [e, h0]
  rfl

theorem seconds_since_malformed_zero_witness :
    seconds_since 100 "not-a-time" = 0 ∧ staleness 100 "not-a-time" = "ok" :=
  seconds_since_malformed_zero 100 "not-a-time" (by decide)

/-- C6 counterexample: the claim says age 0 yields the tier "fresh",
but the classifier's freshest tier is the string "ok". -/
theorem staleness_fresh_label_counterexample :
    staleness 0 "0" = "ok" ∧ staleness 0 "0" ≠ "fresh" := by
  constructor
  · decide
  · decide

/-- C6 (amended): the staleness classifier is a pure function of age
with exactly the claimed boundaries, but its freshest tier is labelled
"ok" in the code (the spec renames it "fresh"): age below 60 gives
"ok", 60 up to strictly below 180 gives "warning", 180 and above gives
"idle". -/
theorem staleness_tiers_amended (now : Int) (ls : String) :
    (seconds_since now ls < 60 → staleness now ls = "ok") ∧
    (60 ≤ seconds_since now ls → seconds_since now ls < 180 → staleness now ls = "warning") ∧
    (180 ≤ seconds_since now ls → staleness now ls = "idle") := by
  have e : staleness now ls =
      (if seconds_since now ls < 60 then "ok"
       else if seconds_since now ls < 180 then "warning" else "idle") := rfl
  refine ⟨fun h => ?_, fun h1 h2 => ?_, fun h => ?_⟩
  · rw [e, if_pos h]
  · rw [e, if_neg (by omega), if_pos h2]
  · rw [e, if_neg (by omega), if_neg (by omega)]

theorem staleness_tiers_amended_witness :
    staleness 59 "0" = "ok" ∧ staleness 60 "0" = "warning" ∧
    staleness 179 "0" = "warning" ∧ staleness 180 "0" = "idle" :=
  ⟨(staleness_tiers_amended 59 "0").1 (by decide),
   (staleness_tiers_amended 60 "0").2.1 (by decide) (by decide),
   (staleness_tiers_amended 179 "0").2.1 (by decide) (by decide),
   (staleness_tiers_amended 180 "0").2.2 (by decide)⟩

/-- C2: one sweeper pass never removes a session (the key sequence of
the sessions dict is unchanged) and, inside every session, keeps a
thread exactly when its age since last report does not exceed 600
seconds — i.e. it removes exactly the threads older than
`EXPIRE_SECONDS`. -/
theorem sweepOnce_removes_exactly_expired_threads (now : Int) (st : Store) :
    ((sweepOnce now st).sessions.map Prod.fst = st.sessions.map Prod.fst) ∧
    (∀ k s, (k, s) ∈ st.sessions →
      ∃ s', (k, s') ∈ (sweepOnce now st).sessions ∧
        ∀ tid t, ((tid, t) ∈ s'.threads ↔
          ((tid, t) ∈ s.threads ∧ seconds_since now t.last_seen ≤ EXPIRE_SECONDS))) := by
  constructor
  · exact map_fst_map (sweepThreads now) st.sessions
  · intro k s hmem
    refine ⟨sweepThreads now s, List.mem_map.mpr ⟨(k, s), hmem, rfl⟩, ?_⟩
    intro tid t
    constructor
    · intro ht
      have h := List.mem_filter.mp ht
      have h2 : decide (¬ seconds_since now t.last_seen > EXPIRE_SECONDS) = true := h.2
      have h3 := of_decide_eq_true h2
      exact ⟨h.1, by omega⟩
    · intro hpair
      refine List.mem_filter.mpr ⟨hpair.1, ?_⟩
      show decide (¬ seconds_since now t.last_seen > EXPIRE_SECONDS) = true
      have h2 := hpair.2
      exact decide_eq_true (by omega)

theorem sweepOnce_removes_exactly_expired_threads_witness :
    ∃ s', ("s1", s') ∈ (sweepOnce 700 demoSweepStore).sessions ∧
      ∀ tid t, ((tid, t) ∈ s'.threads ↔
        ((tid, t) ∈ demoSweepSession.threads ∧ seconds_since 700 t.last_seen ≤ EXPIRE_SECONDS)) :=
  (sweepOnce_removes_exactly_expired_threads 700 demoSweepStore).2 "s1" demoSweepSession
    (by decide)

/-- C3: after every finite sequence of upsert, delete and sweep
operations starting from a store satisfying the invariant, every
session's task-history log still has length at most 5. -/
theorem history_length_le_five_invariant (st : Store) (h : HistBound st) (ops : List Op) :
    HistBound (run st ops) := by
  induction ops generalizing st with
  | nil => exact h
  | cons op rest ih => exact ih (applyOp st op) (histBound_applyOp st op h)

theorem history_length_le_five_invariant_witness :
    HistBound (run initStore
      [.upsertOp 0 { emptyReport with session_id := some "s1", task := some "build" },
       .upsertOp 1 { emptyReport with session_id := some "s1", task := some "test" },
       .upsertOp 2 threadDoneReport,
       .sweepOp 700,
       .deleteOp 800 "s1"]) :=
  history_length_le_five_invariant initStore (by intro p hp; simp [initStore] at hp)
    [.upsertOp 0 { emptyReport with session_id := some "s1", task := some "build" },
     .upsertOp 1 { emptyReport with session_id := some "s1", task := some "test" },
     .upsertOp 2 threadDoneReport,
     .sweepOp 700,
     .deleteOp 800 "s1"]

/-- C1: when a session-path upsert of a live session leaves the merged
status exactly "Done", then immediately afterwards the session is
absent from the snapshot's session list and a retirement entry with
its display name and its final task string is present in the
snapshot's expired list. -/
theorem upsert_done_retires_session (now : Int) (st : Store) (r : Report) (sid : String)
    (s : Session)
    (hwf : ∀ p ∈ st.sessions, p.2.session_id = p.1)
    (hsid : r.session_id = some sid) (hne : sid ≠ "")
    (hpath : takesThreadPath st r = false)
    (hlive : lookupKey sid st.sessions = some s)
    (hdone : r.status.getD s.status = "Done") :
    (∀ v ∈ (get_sessions_json now (upsert_session now st r).1).sessions, v.session_id ≠ sid) ∧
    (⟨s.name, r.task.getD s.task, now_iso now⟩ : ExpiredEntry) ∈
      (get_sessions_json now (upsert_session now st r).1).expired := by
  rw [upsert_eq_sessionPath now st r sid hsid hne hpath,
      upsertSessionPath_done now st sid r s hlive hdone]
  constructor
  · intro v hv
    rcases List.mem_map.mp hv with ⟨p, hp, rfl⟩
    have h1 := mem_eraseKey hp
    rcases mem_setKey h1.2 with heq | hmem
    · exact absurd (congrArg Prod.fst heq) h1.1
    · show p.2.session_id ≠ sid
      rw [hwf p hmem]
      exact h1.1
  · exact mem_drop_last10 st.expired _

theorem upsert_done_retires_session_witness :
    (∀ v ∈ (get_sessions_json 5 (upsert_session 5 demoStore doneReport).1).sessions,
      v.session_id ≠ "s1") ∧
    (⟨"alice", "build", now_iso 5⟩ : ExpiredEntry) ∈
      (get_sessions_json 5 (upsert_session 5 demoStore doneReport).1).expired :=
  upsert_done_retires_session 5 demoStore doneReport "s1" demoSession
    (by decide) rfl (by decide) (by decide) (by decide) rfl

/-- C4: a session-path upsert of an existing session appends to its
history exactly when the incoming task (absent means "keep the stored
task") differs from the stored one; what is appended is the old task,
and the history is truncated from the front to keep at most 5
entries. -/
theorem upsert_history_appends_iff_task_changes (now : Int) (st : Store) (r : Report)
    (sid : String) (s : Session)
    (hsid : r.session_id = some sid) (hne : sid ≠ "")
    (hpath : takesThreadPath st r = false)
    (hlive : lookupKey sid st.sessions = some s)
    (hnd : r.status.getD s.status ≠ "Done") :
    ∃ s', lookupKey sid (upsert_session now st r).1.sessions = some s' ∧
      s'.history = (if r.task.getD s.task ≠ s.task
        then (s.history ++ [s.task]).drop (s.history.length + 1 - 5)
        else s.history) ∧
      (s.history.length ≤ 5 → s'.history.length ≤ 5) := by
  rw [upsert_eq_sessionPath now st r sid hsid hne hpath,
      upsertSessionPath_notDone now st sid r s hlive hnd]
  refine ⟨mergeSession now s r, lookupKey_setKey_self _ _ _, ?_, ?_⟩
  · have e : (mergeSession now s r).history =
        (if r.task.getD s.task ≠ s.task then pushHistory s.history s.task else s.history) := rfl
    rw [e]
    by_cases hc : r.task.getD s.task ≠ s.task
    · rw [if_pos hc, if_pos hc, pushHistory_eq_drop]
      rfl
    · rw [if_neg hc, if_neg hc]
  · intro hb
    exact histBound_mergeSession now s r hb

theorem upsert_history_appends_iff_task_changes_witness :
    ∃ s', lookupKey "s1" (upsert_session 5 demoStore taskReport).1.sessions = some s' ∧
      s'.history = (if taskReport.task.getD demoSession.task ≠ demoSession.task
        then (demoSession.history ++ [demoSession.task]).drop
          (demoSession.history.length + 1 - 5)
        else demoSession.history) ∧
      (demoSession.history.length ≤ 5 → s'.history.length ≤ 5) :=
  upsert_history_appends_iff_task_changes 5 demoStore taskReport "s1" demoSession
    rfl (by decide) (by decide) (by decide) (by decide)

/-- C5: after a thread-path upsert whose parent resolves to a live
session, no thread with status exactly "Done" remains in that parent's
thread mapping — the completed thread is removed by the same upsert
call. -/
theorem upsert_thread_done_removed (now : Int) (st : Store) (r : Report) (sid pid : String)
    (parent : Session)
    (hsid : r.session_id = some sid) (hne : sid ≠ "")
    (hpid : truthy r.parent_id = some pid)
    (hparent : lookupKey pid st.sessions = some parent) :
    ∃ p', lookupKey pid (upsert_session now st r).1.sessions = some p' ∧
      ∀ q ∈ p'.threads, q.2.status ≠ "Done" := by
  rw [upsert_eq_threadPath now st r sid pid parent hsid hne hpid hparent]
  refine ⟨_, lookupKey_setKey_self _ _ _, ?_⟩
  intro q hq
  have h := List.mem_filter.mp hq
  have h2 : decide (q.2.status ≠ "Done") = true := h.2
  exact of_decide_eq_true h2

theorem upsert_thread_done_removed_witness :
    ∃ p', lookupKey "s1" (upsert_session 7 demoStore threadDoneReport).1.sessions = some p' ∧
      ∀ q ∈ p'.threads, q.2.status ≠ "Done" :=
  upsert_thread_done_removed 7 demoStore threadDoneReport "t1" "s1" demoSession
    rfl (by decide) (by decide) (by decide)

/-- C8 counterexample: a retiring upsert whose payload carries `name`
returns that payload name, not the empty string the claim requires
when the session no longer exists after the merge. -/
theorem upsert_return_name_counterexample :
    lookupKey "s1" (upsert_session 0 demoStore namedDoneReport).1.sessions = none ∧
    (upsert_session 0 demoStore namedDoneReport).2 = .sessionOk "s1" "B" 0 ∧
    ("B" : String) ≠ "" := by
  refine ⟨by decide, by decide, by decide⟩

/-- C8 (amended): a session-path upsert returns the session identifier,
the current live-session count, and as name the stored display name
when the session still exists after the merge — otherwise the
payload's `name` field, which is the empty string only when the
payload has no `name`. -/
theorem upsert_session_return_amended (now : Int) (st : Store) (r : Report) (sid : String)
    (hsid : r.session_id = some sid) (hne : sid ≠ "")
    (hpath : takesThreadPath st r = false) :
    (upsert_session now st r).2 = .sessionOk sid
      ((lookupKey sid (upsert_session now st r).1.sessions).elim
        (r.name.getD "") Session.name)
      (upsert_session now st r).1.sessions.length := by
  rw [upsert_eq_sessionPath now st r sid hsid hne hpath]
  simp only [upsertSessionPath]
  split
  · split
    · exact congrArg (fun nm => UpsertResult.sessionOk sid nm _) (returnName_eq _ sid r)
    · exact congrArg (fun nm => UpsertResult.sessionOk sid nm _) (returnName_eq _ sid r)
  · exact congrArg (fun nm => UpsertResult.sessionOk sid nm _) (returnName_eq _ sid r)

theorem upsert_session_return_amended_witness :
    (upsert_session 5 demoStore taskReport).2 = .sessionOk "s1"
      ((lookupKey "s1" (upsert_session 5 demoStore taskReport).1.sessions).elim
        (taskReport.name.getD "") Session.name)
      (upsert_session 5 demoStore taskReport).1.sessions.length :=
  upsert_session_return_amended 5 demoStore taskReport "s1" rfl (by decide) (by decide)

end Workstate
